import Mathlib

/-!
Verification of "The Recursive Grid": a 3×3 numeric puzzle grid.

The repository contains two variants of the pure state-transition
function `updateGrid` (a single-step one in `src/unnamed/part_001` and a
cascading breadth-first one in `src/unnamed/part_002`), plus a
`gameState` module (`src/app/gameState.js`) with state constructors,
`updateCell` and validation helpers.  This file embeds those functions
and proves the behavioural properties stated in the specification.

Conventions of the embedding:
* a grid is a total function `Fin 3 → Fin 3 → ℤ` (JS `number[][]` whose
  cells hold integers, as the data model of the spec prescribes);
* JS row/col click arguments are rationals (`ℚ`), so that the
  `Number.isInteger` test of `isValidPosition` is expressible
  (`q.den = 1`);
* a thrown exception is `Except`/`Option` failure; functions that never
  throw are total;
* "returns the same reference" is modelled as returning a grid equal to
  the input (value semantics).
-/

/-- A 3×3 integer grid (`number[][]` restricted to its valid shape). -/
abbrev Grid := Fin 3 → Fin 3 → ℤ

/-- `isLocked` from the source: a cell is locked iff its value is ≥ 15. -/
def isLocked (value : ℤ) : Prop := 15 ≤ value

instance (value : ℤ) : Decidable (isLocked value) :=
  inferInstanceAs (Decidable (15 ≤ value))

/-- `isValidPosition` from the source: both coordinates must be integers
(`Number.isInteger`, here: denominator 1) lying in `[0, 3)`. -/
def isValidPosition (row col : ℚ) : Prop :=
  row.den = 1 ∧ col.den = 1 ∧ 0 ≤ row ∧ row < 3 ∧ 0 ≤ col ∧ col < 3

instance (row col : ℚ) : Decidable (isValidPosition row col) :=
  inferInstanceAs (Decidable (_ ∧ _ ∧ _ ∧ _ ∧ _ ∧ _))

/-- Convert a valid rational coordinate to a grid index.  The fallback
branch is never reached under `isValidPosition`. -/
def toIdx (q : ℚ) : Fin 3 :=
  if h : q.num.toNat < 3 then ⟨q.num.toNat, h⟩ else 0

/-- Write one cell of a grid (`newGrid[r][c] = v`). -/
def setCell (g : Grid) (r c : Fin 3) (v : ℤ) : Grid :=
  fun i j => if i = r ∧ j = c then v else g i j

/-- Build a grid from nine integers, row-major. -/
def mkGrid (a b c d e f x y z : ℤ) : Grid :=
  fun i j =>
    match i, j with
    | 0, 0 => a | 0, 1 => b | 0, 2 => c
    | 1, 0 => d | 1, 1 => e | 1, 2 => f
    | 2, 0 => x | 2, 1 => y | 2, 2 => z

namespace SingleStep

/-- First ripple block of the single-step `updateGrid`
(`src/unnamed/part_001`): if `newValue` is nonzero and divisible by 3,
decrement the right neighbour of `(r, c)`, provided it exists and is
not locked in the working grid `g`. -/
def rippleRight (g : Grid) (r c : Fin 3) (newValue : ℤ) : Grid :=
  if newValue ≠ 0 ∧ newValue % 3 = 0 then
    if h : (c : ℕ) + 1 < 3 then
      let rc : Fin 3 := ⟨(c : ℕ) + 1, h⟩
      if ¬ isLocked (g r rc) then setCell g r rc (g r rc - 1) else g
    else g
  else g

/-- Second ripple block of the single-step `updateGrid`: if `newValue`
is nonzero and divisible by 5, increment the neighbour below `(r, c)`
by 2, provided it exists and is not locked in the working grid `g`. -/
def rippleDown (g : Grid) (r c : Fin 3) (newValue : ℤ) : Grid :=
  if newValue ≠ 0 ∧ newValue % 5 = 0 then
    if h : (r : ℕ) + 1 < 3 then
      let br : Fin 3 := ⟨(r : ℕ) + 1, h⟩
      if ¬ isLocked (g br c) then setCell g br c (g br c + 2) else g
    else g
  else g

/-- Body of the single-step `updateGrid` (`src/unnamed/part_001`) after
its two guards have passed: clone, increment the clicked cell, then
evaluate the two ripple rules once, for the new value of the clicked
cell only (no cascading).  The two rule blocks run in sequence on the
working grid, exactly as in the source. -/
def click (grid : Grid) (r c : Fin 3) : Grid :=
  let newGrid := setCell grid r c (grid r c + 1)
  let newValue := newGrid r c
  rippleDown (rippleRight newGrid r c newValue) r c newValue

/-- `updateGrid` from the single-step variant of the source
(`src/unnamed/part_001`): validate the position, refuse locked targets
(read on the unmodified input grid), then run the click body. -/
def updateGrid (grid : Grid) (row col : ℚ) : Grid :=
  if ¬ isValidPosition row col then grid
  else
    let r := toIdx row
    let c := toIdx col
    if isLocked (grid r c) then grid
    else click grid r c

end SingleStep

namespace Cascading

/-- Rule 1 of the cascading `updateGrid` (`src/unnamed/part_002`): if
the dequeued value `v` is divisible by 3, decrement the right neighbour
of `(r, c)` — provided it exists and is not locked — and enqueue it as
a non-original cell.  (The zero guard has already run at this point.) -/
def ripple3 (g : Grid) (v : ℤ) (r c : Fin 3) :
    Grid × List (Fin 3 × Fin 3 × Bool) :=
  if v % 3 = 0 then
    if h : (c : ℕ) + 1 < 3 then
      let rc : Fin 3 := ⟨(c : ℕ) + 1, h⟩
      if ¬ isLocked (g r rc) then
        (setCell g r rc (g r rc - 1), [(r, rc, false)])
      else (g, [])
    else (g, [])
  else (g, [])

/-- Rule 2 of the cascading `updateGrid`: if the dequeued value `v` is
divisible by 5, increment the neighbour below `(r, c)` by 2 — provided
it exists and is not locked — and enqueue it as a non-original cell. -/
def ripple5 (g : Grid) (v : ℤ) (r c : Fin 3) :
    Grid × List (Fin 3 × Fin 3 × Bool) :=
  if v % 5 = 0 then
    if h : (r : ℕ) + 1 < 3 then
      let br : Fin 3 := ⟨(r : ℕ) + 1, h⟩
      if ¬ isLocked (g br c) then
        (setCell g br c (g br c + 2), [(br, c, false)])
      else (g, [])
    else (g, [])
  else (g, [])

/-- Body of one BFS iteration of the cascading `updateGrid`
(`src/unnamed/part_002`), after the increment and the zero guard have
been applied: evaluate both ripple rules for the dequeued cell `(r, c)`
against the working grid `g` (the dequeued value is read once, before
either rule), returning the updated grid together with the affected
neighbours to enqueue in rule order.  The divisible-by-3 rule runs
first and its grid update is visible to the lock check of the
divisible-by-5 rule, exactly as in the source. -/
def applyRules (g : Grid) (r c : Fin 3) : Grid × List (Fin 3 × Fin 3 × Bool) :=
  let v := g r c
  let s3 := ripple3 g v r c
  let s5 := ripple5 s3.1 v r c
  (s5.1, s3.2 ++ s5.2)

/-- Everything one BFS iteration does to a newly dequeued cell: the
original-click increment, the zero safety guard, and the two ripple
rules.  Returns the updated grid and the neighbours to enqueue. -/
def stepCell (g : Grid) (r c : Fin 3) (orig : Bool) :
    Grid × List (Fin 3 × Fin 3 × Bool) :=
  let g1 := if orig then setCell g r c (g r c + 1) else g
  if g1 r c = 0 then (g1, []) else applyRules g1 r c

/-- The BFS worklist loop of the cascading `updateGrid`: dequeue the
head, skip cells already processed, mark processed at dequeue time,
increment only the original click, apply the zero safety guard, then
evaluate both ripple rules and enqueue the affected neighbours at the
back of the queue.  The second component counts how many cells were
actually processed (dequeues that were not skipped). -/
def bfsRun (g : Grid) (queue : List (Fin 3 × Fin 3 × Bool))
    (processed : Finset (Fin 3 × Fin 3)) : Grid × ℕ :=
  match queue with
  | [] => (g, 0)
  | (r, c, orig) :: rest =>
    if (r, c) ∈ processed then
      bfsRun g rest processed
    else
      ((bfsRun (stepCell g r c orig).1 (rest ++ (stepCell g r c orig).2)
          (insert (r, c) processed)).1,
       (bfsRun (stepCell g r c orig).1 (rest ++ (stepCell g r c orig).2)
          (insert (r, c) processed)).2 + 1)
termination_by queue.length + 3 * (9 - processed.card)
decreasing_by
  · simp only [List.length_cons]
    omega
  all_goals
    have hcard : (insert (r, c) processed).card = processed.card + 1 :=
      Finset.card_insert_of_not_mem (by assumption)
    have hle : (insert (r, c) processed).card ≤ 9 := by
      simpa using Finset.card_le_univ (insert (r, c) processed)
    have hlen : (stepCell g r c orig).2.length ≤ 2 := by
      show (if (if orig then setCell g r c (g r c + 1) else g) r c = 0
          then ((if orig then setCell g r c (g r c + 1) else g),
            ([] : List (Fin 3 × Fin 3 × Bool)))
          else applyRules (if orig then setCell g r c (g r c + 1) else g) r c).2.length ≤ 2
      split <;> split <;>
        first
          | simp
          | (unfold applyRules ripple3 ripple5
             dsimp only
             split_ifs <;> simp)
    simp only [List.length_append, List.length_cons]
    omega

/-- `updateGrid` from the cascading variant of the source
(`src/unnamed/part_002`): validate the position, refuse locked targets
(read on the unmodified input grid), clone, then run the BFS worklist
seeded with the clicked cell flagged as the original click. -/
def updateGrid (grid : Grid) (row col : ℚ) : Grid :=
  if ¬ isValidPosition row col then grid
  else
    let r := toIdx row
    let c := toIdx col
    if isLocked (grid r c) then grid
    else (bfsRun grid [(r, c, true)] ∅).1

/-- Number of cells the BFS loop of `Cascading.updateGrid` actually
processes during one click (zero on the no-op guard paths). -/
def processedCount (grid : Grid) (row col : ℚ) : ℕ :=
  if ¬ isValidPosition row col then 0
  else
    let r := toIdx row
    let c := toIdx col
    if isLocked (grid r c) then 0
    else (bfsRun grid [(r, c, true)] ∅).2

/-- Fuel-indexed version of the BFS worklist loop, mirroring the source
`while (queue.length > 0)` literally: `none` models the loop failing to
finish within `fuel` iterations. -/
def bfsFuel (fuel : ℕ) (g : Grid) (queue : List (Fin 3 × Fin 3 × Bool))
    (processed : Finset (Fin 3 × Fin 3)) : Option (Grid × ℕ) :=
  match queue with
  | [] => some (g, 0)
  | (r, c, orig) :: rest =>
    match fuel with
    | 0 => none
    | fuel + 1 =>
      if (r, c) ∈ processed then
        bfsFuel fuel g rest processed
      else
        let s := stepCell g r c orig
        (bfsFuel fuel s.1 (rest ++ s.2) (insert (r, c) processed)).map
          (fun out => (out.1, out.2 + 1))

/-- The state record returned by the constructors in
`src/unnamed/part_001` and `src/unnamed/part_002`; unlike the one of
`src/app/gameState.js` it carries only the grid (no `moveCount` or
`isGameOver` fields). -/
structure GameStateLite where
  grid : Grid

/-- `createInitialState` from `src/unnamed/part_001` and
`src/unnamed/part_002`: a state holding the all-zero grid. -/
def createInitialState : GameStateLite :=
  ⟨mkGrid 0 0 0 0 0 0 0 0 0⟩

end Cascading

/-! Model of untyped JavaScript values, as far as the validation helper
`isValidGrid` can observe them. -/

/-- A JavaScript number: either a finite value (modelled as a rational)
or one of the non-finite values `NaN`, `Infinity`, `-Infinity`. -/
inductive JSNum
  | finite (q : ℚ)
  | nan
  | inf
  | negInf

/-- An untyped JavaScript value: a number, an array, or anything else
(a string, an object, `null`, `undefined`, a boolean, ...). -/
inductive JSVal
  | num (n : JSNum)
  | arr (elems : List JSVal)
  | other

/-- `isValidGrid` from the source (identical in `src/app/gameState.js`,
`src/unnamed/part_001` and `src/unnamed/part_002`): the candidate must
be an array of exactly 3 rows, each an array of exactly 3 cells, each
cell passing `typeof cell === 'number' && !isNaN(cell)`.  Note that
`Infinity` and `-Infinity` pass that cell test. -/
def isValidGrid : JSVal → Bool
  | .arr rows =>
      rows.length == 3 &&
      rows.all fun row =>
        match row with
        | .arr cells =>
            cells.length == 3 &&
            cells.all fun cell =>
              match cell with
              | .num .nan => false
              | .num _ => true
              | _ => false
        | _ => false
  | _ => false

/-- The state produced by `createCustomState` in `src/unnamed/part_002`:
a record holding the deep-copied grid. -/
structure CustomState where
  grid : JSVal

/-- The copy `grid.map(row => [...row])`: a fresh outer array of fresh
row arrays.  With value semantics, copying an array yields an equal
array; the non-array fallbacks are unreachable on validated grids. -/
def copyGrid : JSVal → JSVal
  | .arr rows =>
      .arr (rows.map fun row =>
        match row with
        | .arr cells => .arr cells
        | v => v)
  | v => v

/-- `createCustomState` from the source (`src/unnamed/part_002`): throw
a descriptive `Error` exactly when `isValidGrid` rejects the candidate,
otherwise return a state holding a deep copy of the grid. -/
def createCustomState (grid : JSVal) : Except String CustomState :=
  if ¬ (isValidGrid grid) then
    .error "Invalid grid: must be 3x3 array of numbers"
  else
    .ok ⟨copyGrid grid⟩

/-- Modelled from the words of the spec (for comparison with
`isValidGrid`): the candidate is a sequence of exactly 3 rows, each a
sequence of exactly 3 finite numeric values. -/
def specFiniteGrid : JSVal → Prop
  | .arr rows =>
      rows.length = 3 ∧
      ∀ row ∈ rows,
        match row with
        | .arr cells =>
            cells.length = 3 ∧ ∀ cell ∈ cells, ∃ q, cell = .num (.finite q)
        | _ => False
  | _ => False

/-- The predicate `isValidGrid` actually decides: exactly 3 rows of
exactly 3 cells, each a number other than `NaN` (so the non-finite
values `Infinity` and `-Infinity` are accepted). -/
def specNonNaNGrid : JSVal → Prop
  | .arr rows =>
      rows.length = 3 ∧
      ∀ row ∈ rows,
        match row with
        | .arr cells =>
            cells.length = 3 ∧ ∀ cell ∈ cells, ∃ n, cell = .num n ∧ n ≠ .nan
        | _ => False
  | _ => False

namespace GameStateJs

/-- The `GameState` record of `src/app/gameState.js`. -/
structure GameState where
  grid : Grid
  moveCount : ℤ
  isGameOver : Bool

/-- `createInitialState` from `src/app/gameState.js`: the grid holds the
values 1..9 row-major, with `moveCount = 0` and `isGameOver = false`. -/
def createInitialState : GameState :=
  { grid := mkGrid 1 2 3 4 5 6 7 8 9, moveCount := 0, isGameOver := false }

/-- `updateCell` from `src/app/gameState.js`: throw (`none`) on an
invalid position, return the state unchanged when the target cell is
locked, otherwise write `newValue` at the target into a fresh grid and
increment `moveCount`. -/
def updateCell (state : GameState) (row col : ℚ) (newValue : ℤ) :
    Option GameState :=
  if ¬ isValidPosition row col then none
  else
    let r := toIdx row
    let c := toIdx col
    if isLocked (state.grid r c) then some state
    else
      some { state with
        grid := setCell state.grid r c newValue
        moveCount := state.moveCount + 1 }

end GameStateJs

/-! Basic facts about the building blocks. -/

theorem setCell_same (g : Grid) (r c : Fin 3) (v : ℤ) :
    setCell g r c v r c = v := by
  simp [setCell]

theorem setCell_other (g : Grid) (r c : Fin 3) (v : ℤ) (i j : Fin 3)
    (h : ¬(i = r ∧ j = c)) : setCell g r c v i j = g i j := by
  simp [setCell, h]

theorem applyRules_snd_length (g : Grid) (r c : Fin 3) :
    (Cascading.applyRules g r c).2.length ≤ 2 := by
  unfold Cascading.applyRules Cascading.ripple3 Cascading.ripple5
  dsimp only
  split_ifs <;> simp

theorem stepCell_snd_length (g : Grid) (r c : Fin 3) (orig : Bool) :
    (Cascading.stepCell g r c orig).2.length ≤ 2 := by
  show (if (if orig then setCell g r c (g r c + 1) else g) r c = 0
      then ((if orig then setCell g r c (g r c + 1) else g),
        ([] : List (Fin 3 × Fin 3 × Bool)))
      else Cascading.applyRules (if orig then setCell g r c (g r c + 1) else g) r c).2.length ≤ 2
  split <;> split <;>
    first
      | simp
      | exact applyRules_snd_length _ r c

/-! Bridging lemmas between the rational click coordinates of the JS
interface and `Fin 3` cell indices. -/

theorem isValidPosition_natCast (r c : Fin 3) :
    isValidPosition ((r : ℕ) : ℚ) ((c : ℕ) : ℚ) := by
  refine ⟨Rat.den_natCast _, Rat.den_natCast _, by positivity, ?_, by positivity, ?_⟩
  · exact_mod_cast r.isLt
  · exact_mod_cast c.isLt

theorem toIdx_natCast (n : Fin 3) : toIdx ((n : ℕ) : ℚ) = n := by
  unfold toIdx
  have h1 : ((n : ℕ) : ℚ).num = ((n : ℕ) : ℤ) := Rat.num_natCast _
  simp [h1, n.isLt]

theorem updateGrid_single_cast (g : Grid) (r c : Fin 3) :
    SingleStep.updateGrid g ((r : ℕ) : ℚ) ((c : ℕ) : ℚ) =
      if isLocked (g r c) then g else SingleStep.click g r c := by
  rw [SingleStep.updateGrid]
  simp [isValidPosition_natCast, toIdx_natCast]

theorem updateGrid_cascading_cast (g : Grid) (r c : Fin 3) :
    Cascading.updateGrid g ((r : ℕ) : ℚ) ((c : ℕ) : ℚ) =
      if isLocked (g r c) then g else (Cascading.bfsRun g [(r, c, true)] ∅).1 := by
  rw [Cascading.updateGrid]
  simp [isValidPosition_natCast, toIdx_natCast]

theorem processedCount_cast (g : Grid) (r c : Fin 3) :
    Cascading.processedCount g ((r : ℕ) : ℚ) ((c : ℕ) : ℚ) =
      if isLocked (g r c) then 0 else (Cascading.bfsRun g [(r, c, true)] ∅).2 := by
  rw [Cascading.processedCount]
  simp [isValidPosition_natCast, toIdx_natCast]

/-- The worklist loop terminates: any fuel of at least
`queue.length + 3 * (9 - processed.card)` iterations is enough, and the
fuelled loop then agrees with the total function `bfsRun`. -/
theorem bfsFuel_eq (fuel : ℕ) (g : Grid)
    (queue : List (Fin 3 × Fin 3 × Bool)) (processed : Finset (Fin 3 × Fin 3))
    (hfuel : queue.length + 3 * (9 - processed.card) ≤ fuel) :
    Cascading.bfsFuel fuel g queue processed
      = some (Cascading.bfsRun g queue processed) := by
  induction fuel generalizing g queue processed with
  | zero =>
    have hq : queue = [] := by
      cases queue with
      | nil => rfl
      | cons a t => simp [List.length_cons] at hfuel
    subst hq
    rw [Cascading.bfsRun, Cascading.bfsFuel]
  | succ fuel ih =>
    cases queue with
    | nil => rw [Cascading.bfsRun, Cascading.bfsFuel]
    | cons head rest =>
      obtain ⟨r, c, orig⟩ := head
      rw [Cascading.bfsRun, Cascading.bfsFuel]
      by_cases hmem : (r, c) ∈ processed
      · simp only [hmem, if_true]
        exact ih g rest processed (by simp at hfuel; omega)
      · simp only [hmem, if_false]
        have hcard : (insert (r, c) processed).card = processed.card + 1 :=
          Finset.card_insert_of_not_mem hmem
        have hle : (insert (r, c) processed).card ≤ 9 := by
          simpa using Finset.card_le_univ (insert (r, c) processed)
        have hlen : (Cascading.stepCell g r c orig).2.length ≤ 2 :=
          stepCell_snd_length g r c orig
        rw [ih (Cascading.stepCell g r c orig).1
              (rest ++ (Cascading.stepCell g r c orig).2)
              (insert (r, c) processed)
              (by simp only [List.length_append, List.length_cons] at hfuel ⊢; omega)]
        simp

/-- Computation rule: the total BFS loop can be evaluated through its
fuelled version whenever the fuel covers the termination measure. -/
theorem bfsRun_eq_getD (fuel : ℕ) (g : Grid)
    (queue : List (Fin 3 × Fin 3 × Bool)) (processed : Finset (Fin 3 × Fin 3))
    (d : Grid × ℕ) (hfuel : queue.length + 3 * (9 - processed.card) ≤ fuel) :
    Cascading.bfsRun g queue processed
      = (Cascading.bfsFuel fuel g queue processed).getD d := by
  rw [bfsFuel_eq fuel g queue processed hfuel, Option.getD_some]

/-! Cellwise characterization of the single-step click body. -/

theorem rippleRight_at (g : Grid) (r c : Fin 3) (v : ℤ) (j : Fin 3)
    (hj : (j : ℕ) = (c : ℕ) + 1) :
    SingleStep.rippleRight g r c v r j =
      if v ≠ 0 ∧ v % 3 = 0 ∧ ¬ isLocked (g r j) then g r j - 1 else g r j := by
  have hc : (c : ℕ) + 1 < 3 := hj ▸ j.isLt
  have hjc : j = ⟨(c : ℕ) + 1, hc⟩ := Fin.ext hj
  subst hjc
  unfold SingleStep.rippleRight
  simp only [ite_apply, dite_apply, dif_pos hc]
  split_ifs <;> simp_all [setCell_same]

theorem rippleRight_other (g : Grid) (r c : Fin 3) (v : ℤ) (i j : Fin 3)
    (h : ¬(i = r ∧ (j : ℕ) = (c : ℕ) + 1)) :
    SingleStep.rippleRight g r c v i j = g i j := by
  unfold SingleStep.rippleRight
  simp only [ite_apply, dite_apply]
  split_ifs <;> try rfl
  apply setCell_other
  rintro ⟨rfl, rfl⟩
  exact h ⟨rfl, rfl⟩

theorem rippleDown_at (g : Grid) (r c : Fin 3) (v : ℤ) (i : Fin 3)
    (hi : (i : ℕ) = (r : ℕ) + 1) :
    SingleStep.rippleDown g r c v i c =
      if v ≠ 0 ∧ v % 5 = 0 ∧ ¬ isLocked (g i c) then g i c + 2 else g i c := by
  have hr : (r : ℕ) + 1 < 3 := hi ▸ i.isLt
  have hir : i = ⟨(r : ℕ) + 1, hr⟩ := Fin.ext hi
  subst hir
  unfold SingleStep.rippleDown
  simp only [ite_apply, dite_apply, dif_pos hr]
  split_ifs <;> simp_all [setCell_same]

theorem rippleDown_other (g : Grid) (r c : Fin 3) (v : ℤ) (i j : Fin 3)
    (h : ¬((i : ℕ) = (r : ℕ) + 1 ∧ j = c)) :
    SingleStep.rippleDown g r c v i j = g i j := by
  unfold SingleStep.rippleDown
  simp only [ite_apply, dite_apply]
  split_ifs <;> try rfl
  apply setCell_other
  rintro ⟨rfl, rfl⟩
  exact h ⟨rfl, rfl⟩

theorem click_center (g : Grid) (r c : Fin 3) :
    SingleStep.click g r c r c = g r c + 1 := by
  simp only [SingleStep.click, setCell_same]
  rw [rippleDown_other _ _ _ _ _ _ (by simp),
    rippleRight_other _ _ _ _ _ _ (by simp), setCell_same]

theorem click_right (g : Grid) (r c j : Fin 3) (hj : (j : ℕ) = (c : ℕ) + 1) :
    SingleStep.click g r c r j =
      if g r c + 1 ≠ 0 ∧ (g r c + 1) % 3 = 0 ∧ ¬ isLocked (g r j)
      then g r j - 1 else g r j := by
  simp only [SingleStep.click, setCell_same]
  rw [rippleDown_other _ _ _ _ _ _ (by simp),
    rippleRight_at _ _ _ _ _ hj,
    setCell_other _ _ _ _ _ _ (by rintro ⟨-, rfl⟩; omega)]

theorem click_below (g : Grid) (r c i : Fin 3) (hi : (i : ℕ) = (r : ℕ) + 1) :
    SingleStep.click g r c i c =
      if g r c + 1 ≠ 0 ∧ (g r c + 1) % 5 = 0 ∧ ¬ isLocked (g i c)
      then g i c + 2 else g i c := by
  simp only [SingleStep.click, setCell_same]
  rw [rippleDown_at _ _ _ _ _ hi,
    rippleRight_other _ _ _ _ _ _ (by rintro ⟨rfl, -⟩; omega),
    setCell_other _ _ _ _ _ _ (by rintro ⟨rfl, -⟩; omega)]

theorem click_other (g : Grid) (r c i j : Fin 3)
    (h1 : ¬(i = r ∧ j = c)) (h2 : ¬(i = r ∧ (j : ℕ) = (c : ℕ) + 1))
    (h3 : ¬((i : ℕ) = (r : ℕ) + 1 ∧ j = c)) :
    SingleStep.click g r c i j = g i j := by
  simp only [SingleStep.click, setCell_same]
  rw [rippleDown_other _ _ _ _ _ _ h3, rippleRight_other _ _ _ _ _ _ h2,
    setCell_other _ _ _ _ _ _ h1]

/-! Cellwise characterization of one cascading BFS iteration. -/

theorem ripple3_fst_at (g : Grid) (v : ℤ) (r c j : Fin 3)
    (hj : (j : ℕ) = (c : ℕ) + 1) :
    (Cascading.ripple3 g v r c).1 r j =
      if v % 3 = 0 ∧ ¬ isLocked (g r j) then g r j - 1 else g r j := by
  have hc : (c : ℕ) + 1 < 3 := hj ▸ j.isLt
  have hjc : j = ⟨(c : ℕ) + 1, hc⟩ := Fin.ext hj
  subst hjc
  unfold Cascading.ripple3
  simp only [dif_pos hc]
  split_ifs <;> simp_all [setCell_same]

theorem ripple3_fst_other (g : Grid) (v : ℤ) (r c i j : Fin 3)
    (h : ¬(i = r ∧ (j : ℕ) = (c : ℕ) + 1)) :
    (Cascading.ripple3 g v r c).1 i j = g i j := by
  unfold Cascading.ripple3
  dsimp only
  split_ifs <;> try rfl
  dsimp only
  apply setCell_other
  rintro ⟨rfl, rfl⟩
  exact h ⟨rfl, rfl⟩

theorem ripple3_fst_locked (g : Grid) (v : ℤ) (r c i j : Fin 3)
    (h : isLocked (g i j)) :
    (Cascading.ripple3 g v r c).1 i j = g i j := by
  unfold Cascading.ripple3
  dsimp only
  split_ifs with h1 h2 h3 <;> try rfl
  dsimp only
  apply setCell_other
  rintro ⟨rfl, rfl⟩
  exact h3 h

theorem ripple3_snd (g : Grid) (v : ℤ) (r c : Fin 3) :
    ∀ e ∈ (Cascading.ripple3 g v r c).2,
      e.2.2 = false ∧ (e.1 : ℕ) + (e.2.1 : ℕ) = (r : ℕ) + ((c : ℕ) + 1) := by
  unfold Cascading.ripple3
  dsimp only
  split_ifs <;> simp

theorem ripple5_fst_at (g : Grid) (v : ℤ) (r c i : Fin 3)
    (hi : (i : ℕ) = (r : ℕ) + 1) :
    (Cascading.ripple5 g v r c).1 i c =
      if v % 5 = 0 ∧ ¬ isLocked (g i c) then g i c + 2 else g i c := by
  have hr : (r : ℕ) + 1 < 3 := hi ▸ i.isLt
  have hir : i = ⟨(r : ℕ) + 1, hr⟩ := Fin.ext hi
  subst hir
  unfold Cascading.ripple5
  simp only [dif_pos hr]
  split_ifs <;> simp_all [setCell_same]

theorem ripple5_fst_other (g : Grid) (v : ℤ) (r c i j : Fin 3)
    (h : ¬((i : ℕ) = (r : ℕ) + 1 ∧ j = c)) :
    (Cascading.ripple5 g v r c).1 i j = g i j := by
  unfold Cascading.ripple5
  dsimp only
  split_ifs <;> try rfl
  dsimp only
  apply setCell_other
  rintro ⟨rfl, rfl⟩
  exact h ⟨rfl, rfl⟩

theorem ripple5_fst_locked (g : Grid) (v : ℤ) (r c i j : Fin 3)
    (h : isLocked (g i j)) :
    (Cascading.ripple5 g v r c).1 i j = g i j := by
  unfold Cascading.ripple5
  dsimp only
  split_ifs with h1 h2 h3 <;> try rfl
  dsimp only
  apply setCell_other
  rintro ⟨rfl, rfl⟩
  exact h3 h

theorem ripple5_snd (g : Grid) (v : ℤ) (r c : Fin 3) :
    ∀ e ∈ (Cascading.ripple5 g v r c).2,
      e.2.2 = false ∧ (e.1 : ℕ) + (e.2.1 : ℕ) = ((r : ℕ) + 1) + (c : ℕ) := by
  unfold Cascading.ripple5
  dsimp only
  split_ifs <;> simp

theorem applyRules_fst_center (g : Grid) (r c : Fin 3) :
    (Cascading.applyRules g r c).1 r c = g r c := by
  unfold Cascading.applyRules
  dsimp only
  rw [ripple5_fst_other _ _ _ _ _ _ (by rintro ⟨h, -⟩; omega),
    ripple3_fst_other _ _ _ _ _ _ (by rintro ⟨-, h⟩; omega)]

theorem applyRules_fst_locked (g : Grid) (r c i j : Fin 3)
    (h : isLocked (g i j)) :
    (Cascading.applyRules g r c).1 i j = g i j := by
  unfold Cascading.applyRules
  dsimp only
  have h3 : (Cascading.ripple3 g (g r c) r c).1 i j = g i j :=
    ripple3_fst_locked _ _ _ _ _ _ h
  rw [ripple5_fst_locked _ _ _ _ _ _ (by rw [h3]; exact h), h3]

theorem applyRules_fst_other (g : Grid) (r c i j : Fin 3)
    (h2 : ¬(i = r ∧ (j : ℕ) = (c : ℕ) + 1))
    (h3 : ¬((i : ℕ) = (r : ℕ) + 1 ∧ j = c)) :
    (Cascading.applyRules g r c).1 i j = g i j := by
  unfold Cascading.applyRules
  dsimp only
  rw [ripple5_fst_other _ _ _ _ _ _ h3, ripple3_fst_other _ _ _ _ _ _ h2]

theorem applyRules_snd_spec (g : Grid) (r c : Fin 3) :
    ∀ e ∈ (Cascading.applyRules g r c).2,
      e.2.2 = false ∧ (e.1 : ℕ) + (e.2.1 : ℕ) = (r : ℕ) + (c : ℕ) + 1 := by
  unfold Cascading.applyRules
  dsimp only
  intro e he
  rcases List.mem_append.1 he with h | h
  · have := ripple3_snd _ _ _ _ e h
    exact ⟨this.1, by omega⟩
  · have := ripple5_snd _ _ _ _ e h
    exact ⟨this.1, by omega⟩

theorem stepCell_fst_center_true (g : Grid) (r c : Fin 3) :
    (Cascading.stepCell g r c true).1 r c = g r c + 1 := by
  show (if setCell g r c (g r c + 1) r c = 0
      then (setCell g r c (g r c + 1), ([] : List (Fin 3 × Fin 3 × Bool)))
      else Cascading.applyRules (setCell g r c (g r c + 1)) r c).1 r c = g r c + 1
  split_ifs with hz
  · exact setCell_same g r c _
  · rw [applyRules_fst_center, setCell_same]

theorem stepCell_fst_of_locked (g0 g : Grid) (r c : Fin 3) (orig : Bool)
    (horig : orig = true → ¬ isLocked (g0 r c))
    (hg : ∀ a b, isLocked (g0 a b) → g a b = g0 a b)
    (i j : Fin 3) (h : isLocked (g0 i j)) :
    (Cascading.stepCell g r c orig).1 i j = g0 i j := by
  cases orig with
  | false =>
    show (if g r c = 0 then (g, ([] : List (Fin 3 × Fin 3 × Bool)))
        else Cascading.applyRules g r c).1 i j = g0 i j
    split_ifs with hz
    · exact hg i j h
    · rw [applyRules_fst_locked _ _ _ i j (by rw [hg i j h]; exact h)]
      exact hg i j h
  | true =>
    have hne : ¬ isLocked (g0 r c) := horig rfl
    have hg1 : ∀ a b, isLocked (g0 a b) →
        setCell g r c (g r c + 1) a b = g0 a b := by
      intro a b hab
      have hne2 : ¬(a = r ∧ b = c) := by
        rintro ⟨rfl, rfl⟩
        exact hne hab
      rw [setCell_other _ _ _ _ _ _ hne2]
      exact hg a b hab
    show (if setCell g r c (g r c + 1) r c = 0
        then (setCell g r c (g r c + 1), ([] : List (Fin 3 × Fin 3 × Bool)))
        else Cascading.applyRules (setCell g r c (g r c + 1)) r c).1 i j = g0 i j
    split_ifs with hz
    · exact hg1 i j h
    · rw [applyRules_fst_locked _ _ _ i j (by rw [hg1 i j h]; exact h)]
      exact hg1 i j h

theorem stepCell_snd_spec (g : Grid) (r c : Fin 3) (orig : Bool) :
    ∀ e ∈ (Cascading.stepCell g r c orig).2,
      e.2.2 = false ∧ (e.1 : ℕ) + (e.2.1 : ℕ) = (r : ℕ) + (c : ℕ) + 1 := by
  cases orig with
  | false =>
    intro e he
    have he2 : e ∈ (if g r c = 0 then (g, ([] : List (Fin 3 × Fin 3 × Bool)))
        else Cascading.applyRules g r c).2 := he
    split_ifs at he2 with hz
    · simp at he2
    · exact applyRules_snd_spec _ _ _ e he2
  | true =>
    intro e he
    have he2 : e ∈ (if setCell g r c (g r c + 1) r c = 0
        then (setCell g r c (g r c + 1), ([] : List (Fin 3 × Fin 3 × Bool)))
        else Cascading.applyRules (setCell g r c (g r c + 1)) r c).2 := he
    split_ifs at he2 with hz
    · simp at he2
    · exact applyRules_snd_spec _ _ _ e he2

theorem stepCell_false_fst_other (g : Grid) (r c i j : Fin 3)
    (h2 : ¬(i = r ∧ (j : ℕ) = (c : ℕ) + 1))
    (h3 : ¬((i : ℕ) = (r : ℕ) + 1 ∧ j = c)) :
    (Cascading.stepCell g r c false).1 i j = g i j := by
  show (if g r c = 0 then (g, ([] : List (Fin 3 × Fin 3 × Bool)))
      else Cascading.applyRules g r c).1 i j = g i j
  split_ifs with hz
  · rfl
  · exact applyRules_fst_other _ _ _ _ _ h2 h3

theorem bfsRun_count (g : Grid) (queue : List (Fin 3 × Fin 3 × Bool))
    (processed : Finset (Fin 3 × Fin 3)) :
    (Cascading.bfsRun g queue processed).2 + processed.card ≤ 9 := by
  induction g, queue, processed using Cascading.bfsRun.induct with
  | case1 g processed =>
    rw [Cascading.bfsRun]
    simpa using Finset.card_le_univ processed
  | case2 g processed r c orig rest hmem ih =>
    rw [Cascading.bfsRun]
    simp only [hmem, if_true]
    exact ih
  | case3 g processed r c orig rest hmem ih =>
    rw [Cascading.bfsRun]
    simp only [hmem, if_false]
    have hcard : (insert (r, c) processed).card = processed.card + 1 :=
      Finset.card_insert_of_not_mem hmem
    omega

/-- Locked-cell invariant of the BFS loop: cells that are locked in the
reference grid `g0` keep their `g0` value, provided entries flagged as
the original click target cells that are unlocked in `g0` and the
working grid already agrees with `g0` on locked cells. -/
theorem bfsRun_locked (g0 : Grid) (g : Grid)
    (queue : List (Fin 3 × Fin 3 × Bool)) (processed : Finset (Fin 3 × Fin 3)) :
    (∀ e ∈ queue, e.2.2 = true → ¬ isLocked (g0 e.1 e.2.1)) →
    (∀ a b, isLocked (g0 a b) → g a b = g0 a b) →
    ∀ i j, isLocked (g0 i j) → (Cascading.bfsRun g queue processed).1 i j = g0 i j := by
  induction g, queue, processed using Cascading.bfsRun.induct with
  | case1 g processed =>
    intro hq hg i j h
    rw [Cascading.bfsRun]
    exact hg i j h
  | case2 g processed r c orig rest hmem ih =>
    intro hq hg i j h
    rw [Cascading.bfsRun]
    simp only [hmem, if_true]
    exact ih (fun e he hb => hq e (List.mem_cons_of_mem _ he) hb) hg i j h
  | case3 g processed r c orig rest hmem ih =>
    intro hq hg i j h
    rw [Cascading.bfsRun]
    simp only [hmem, if_false]
    have horig : orig = true → ¬ isLocked (g0 r c) :=
      fun hb => hq (r, c, orig) (List.mem_cons_self _ _) hb
    refine ih ?_ ?_ i j h
    · intro e he hb
      rcases List.mem_append.1 he with h1 | h1
      · exact hq e (List.mem_cons_of_mem _ h1) hb
      · have hf := (stepCell_snd_spec g r c orig e h1).1
        rw [hf] at hb
        simp at hb
    · intro a b hab
      exact stepCell_fst_of_locked g0 g r c orig horig hg a b hab

/-- The cascade never writes back into a cell strictly above-left of
every queue entry: ripple targets always lie strictly to the right or
strictly below their source, so their coordinate sums only grow. -/
theorem bfsRun_avoid (r0 c0 : Fin 3) (g : Grid)
    (queue : List (Fin 3 × Fin 3 × Bool)) (processed : Finset (Fin 3 × Fin 3)) :
    (∀ e ∈ queue, e.2.2 = false ∧ (r0 : ℕ) + (c0 : ℕ) < (e.1 : ℕ) + (e.2.1 : ℕ)) →
    (Cascading.bfsRun g queue processed).1 r0 c0 = g r0 c0 := by
  induction g, queue, processed using Cascading.bfsRun.induct with
  | case1 g processed =>
    intro hq
    rw [Cascading.bfsRun]
  | case2 g processed r c orig rest hmem ih =>
    intro hq
    rw [Cascading.bfsRun]
    simp only [hmem, if_true]
    exact ih (fun e he => hq e (List.mem_cons_of_mem _ he))
  | case3 g processed r c orig rest hmem ih =>
    intro hq
    rw [Cascading.bfsRun]
    simp only [hmem, if_false]
    have hhead := hq (r, c, orig) (List.mem_cons_self _ _)
    have hsum : (r0 : ℕ) + (c0 : ℕ) < (r : ℕ) + (c : ℕ) := hhead.2
    have horig : orig = false := hhead.1
    subst horig
    have hstep : (Cascading.stepCell g r c false).1 r0 c0 = g r0 c0 := by
      apply stepCell_false_fst_other
      · rintro ⟨rfl, hj⟩
        omega
      · rintro ⟨hi, rfl⟩
        omega
    have hq2 : ∀ e ∈ rest ++ (Cascading.stepCell g r c false).2,
        e.2.2 = false ∧ (r0 : ℕ) + (c0 : ℕ) < (e.1 : ℕ) + (e.2.1 : ℕ) := by
      intro e he
      rcases List.mem_append.1 he with h1 | h1
      · exact hq e (List.mem_cons_of_mem _ h1)
      · have hs := stepCell_snd_spec g r c false e h1
        exact ⟨hs.1, by omega⟩
    rw [ih hq2, hstep]

/-! The claims. -/

/-- C5: invalid-position no-op — for every grid and every (row, col)
where row or col is not an integer or lies outside [0, 3), both
variants of updateGrid do not throw (they are total functions) and
return the input grid itself, contents unchanged. -/
theorem c5_invalid_position_noop (g : Grid) (row col : ℚ)
    (h : row.den ≠ 1 ∨ col.den ≠ 1 ∨ row < 0 ∨ 3 ≤ row ∨ col < 0 ∨ 3 ≤ col) :
    SingleStep.updateGrid g row col = g ∧ Cascading.updateGrid g row col = g := by
  have hv : ¬ isValidPosition row col := by
    rintro ⟨h1, h2, h3, h4, h5, h6⟩
    rcases h with h | h | h | h | h | h
    · exact h h1
    · exact h h2
    · exact absurd h3 (not_le.mpr h)
    · exact absurd h4 (not_lt.mpr h)
    · exact absurd h5 (not_le.mpr h)
    · exact absurd h6 (not_lt.mpr h)
  constructor
  · rw [SingleStep.updateGrid, if_pos hv]
  · rw [Cascading.updateGrid, if_pos hv]

/-- Witness for C5 at the concrete out-of-range click (-1, 0). -/
theorem c5_invalid_position_noop_witness :
    ((-1 : ℚ).den ≠ 1 ∨ (0 : ℚ).den ≠ 1 ∨ (-1 : ℚ) < 0 ∨ 3 ≤ (-1 : ℚ)
      ∨ (0 : ℚ) < 0 ∨ 3 ≤ (0 : ℚ))
  ∧ SingleStep.updateGrid (mkGrid 0 0 0 0 0 0 0 0 0) (-1) 0
      = mkGrid 0 0 0 0 0 0 0 0 0
  ∧ Cascading.updateGrid (mkGrid 0 0 0 0 0 0 0 0 0) (-1) 0
      = mkGrid 0 0 0 0 0 0 0 0 0 :=
  ⟨by norm_num,
   (c5_invalid_position_noop (mkGrid 0 0 0 0 0 0 0 0 0) (-1) 0 (by norm_num)).1,
   (c5_invalid_position_noop (mkGrid 0 0 0 0 0 0 0 0 0) (-1) 0 (by norm_num)).2⟩

/-- C6: locked-click no-op — for every grid and every in-bounds click
whose target value, read from the unmodified input grid, is ≥ 15, both
variants return the input grid itself, contents unchanged. -/
theorem c6_locked_click_noop (g : Grid) (r c : Fin 3) (h : 15 ≤ g r c) :
    SingleStep.updateGrid g ((r : ℕ) : ℚ) ((c : ℕ) : ℚ) = g
  ∧ Cascading.updateGrid g ((r : ℕ) : ℚ) ((c : ℕ) : ℚ) = g := by
  constructor
  · rw [updateGrid_single_cast, if_pos (show isLocked (g r c) from h)]
  · rw [updateGrid_cascading_cast, if_pos (show isLocked (g r c) from h)]

/-- Witness for C6: grid [[15,0,0],[0,0,0],[0,0,0]] clicked at (0,0). -/
theorem c6_locked_click_noop_witness :
    15 ≤ mkGrid 15 0 0 0 0 0 0 0 0 0 0
  ∧ SingleStep.updateGrid (mkGrid 15 0 0 0 0 0 0 0 0) 0 0
      = mkGrid 15 0 0 0 0 0 0 0 0
  ∧ Cascading.updateGrid (mkGrid 15 0 0 0 0 0 0 0 0) 0 0
      = mkGrid 15 0 0 0 0 0 0 0 0 := by
  have h0 : ((0 : ℚ)) = (((0 : Fin 3) : ℕ) : ℚ) := by norm_num
  refine ⟨by decide, ?_, ?_⟩
  · rw [h0]
    exact (c6_locked_click_noop (mkGrid 15 0 0 0 0 0 0 0 0) 0 0 (by decide)).1
  · rw [h0]
    exact (c6_locked_click_noop (mkGrid 15 0 0 0 0 0 0 0 0) 0 0 (by decide)).2

/-- C10: the clicked cell receives exactly +1 and nothing else — in both
variants, for every accepted click (in bounds, target value < 15), the
returned grid at the clicked position is the input value plus exactly 1;
in the cascade no ripple can flow back into the clicked cell because
ripple targets lie strictly to the right or strictly below their
source. -/
theorem c10_clicked_cell_exact_increment (g : Grid) (r c : Fin 3)
    (h : g r c < 15) :
    SingleStep.updateGrid g ((r : ℕ) : ℚ) ((c : ℕ) : ℚ) r c = g r c + 1
  ∧ Cascading.updateGrid g ((r : ℕ) : ℚ) ((c : ℕ) : ℚ) r c = g r c + 1 := by
  have hl : ¬ isLocked (g r c) := by unfold isLocked; omega
  constructor
  · rw [updateGrid_single_cast, if_neg hl]
    exact click_center g r c
  · rw [updateGrid_cascading_cast, if_neg hl]
    rw [Cascading.bfsRun]
    simp only [Finset.not_mem_empty, if_false]
    rw [bfsRun_avoid r c _ _ _ ?hq]
    · exact stepCell_fst_center_true g r c
    case hq =>
      intro e he
      rw [List.nil_append] at he
      have hs := stepCell_snd_spec g r c true e he
      exact ⟨hs.1, by omega⟩

/-- Witness for C10 at grid [[2,0,0],[0,0,0],[0,0,0]], click (0,0). -/
theorem c10_clicked_cell_exact_increment_witness :
    mkGrid 2 0 0 0 0 0 0 0 0 0 0 < 15
  ∧ SingleStep.updateGrid (mkGrid 2 0 0 0 0 0 0 0 0) 0 0 0 0
      = mkGrid 2 0 0 0 0 0 0 0 0 0 0 + 1
  ∧ Cascading.updateGrid (mkGrid 2 0 0 0 0 0 0 0 0) 0 0 0 0
      = mkGrid 2 0 0 0 0 0 0 0 0 0 0 + 1 := by
  have h0 : ((0 : ℚ)) = (((0 : Fin 3) : ℕ) : ℚ) := by norm_num
  refine ⟨by decide, ?_, ?_⟩
  · rw [h0]
    exact (c10_clicked_cell_exact_increment (mkGrid 2 0 0 0 0 0 0 0 0) 0 0 (by decide)).1
  · rw [h0]
    exact (c10_clicked_cell_exact_increment (mkGrid 2 0 0 0 0 0 0 0 0) 0 0 (by decide)).2

/-- C2: cascading chain scenario — on grid [[2,4,0],[0,0,0],[0,0,0]],
clicking (0,0) in the cascading variant returns
[[3,3,-1],[0,0,0],[0,0,0]]: 2 becomes 3, which ripples right turning 4
into 3, which itself ripples right turning 0 into -1. -/
theorem c2_cascading_chain_scenario :
    Cascading.updateGrid (mkGrid 2 4 0 0 0 0 0 0 0) 0 0
      = mkGrid 3 3 (-1) 0 0 0 0 0 0
  ∧ (mkGrid 2 4 0 0 0 0 0 0 0 0 0 = 2
      ∧ Cascading.updateGrid (mkGrid 2 4 0 0 0 0 0 0 0) 0 0 0 0 = 3)
  ∧ (mkGrid 2 4 0 0 0 0 0 0 0 0 1 = 4
      ∧ Cascading.updateGrid (mkGrid 2 4 0 0 0 0 0 0 0) 0 0 0 1 = 3)
  ∧ (mkGrid 2 4 0 0 0 0 0 0 0 0 2 = 0
      ∧ Cascading.updateGrid (mkGrid 2 4 0 0 0 0 0 0 0) 0 0 0 2 = -1) := by
  have key : Cascading.updateGrid (mkGrid 2 4 0 0 0 0 0 0 0) 0 0
      = mkGrid 3 3 (-1) 0 0 0 0 0 0 := by
    have h0 : ((0 : ℚ)) = (((0 : Fin 3) : ℕ) : ℚ) := by norm_num
    rw [h0, updateGrid_cascading_cast, if_neg (by decide)]
    rw [Cascading.bfsRun, if_neg (Finset.not_mem_empty _),
      show Cascading.stepCell (mkGrid 2 4 0 0 0 0 0 0 0) 0 0 true
          = (mkGrid 3 3 0 0 0 0 0 0 0, [((0 : Fin 3), (1 : Fin 3), false)])
        from by decide]
    dsimp only
    simp only [List.nil_append]
    rw [Cascading.bfsRun, if_neg (by decide),
      show Cascading.stepCell (mkGrid 3 3 0 0 0 0 0 0 0) 0 1 false
          = (mkGrid 3 3 (-1) 0 0 0 0 0 0, [((0 : Fin 3), (2 : Fin 3), false)])
        from by decide]
    dsimp only
    simp only [List.nil_append]
    rw [Cascading.bfsRun, if_neg (by decide),
      show Cascading.stepCell (mkGrid 3 3 (-1) 0 0 0 0 0 0) 0 2 false
          = (mkGrid 3 3 (-1) 0 0 0 0 0 0, ([] : List (Fin 3 × Fin 3 × Bool)))
        from by decide]
    dsimp only
    simp only [List.nil_append]
    rw [Cascading.bfsRun]
  refine ⟨key, ⟨by decide, ?_⟩, ⟨by decide, ?_⟩, ⟨by decide, ?_⟩⟩ <;>
    rw [key] <;> decide

/-- C4: cascading termination bound — the worklist loop always
terminates (the fuelled loop finishes within any fuel covering the
measure, which is at most 28 from a single seeded click) and at most 9
cells are ever processed during one call, by the visited-set guarantee
(cells are marked processed at dequeue time). -/
theorem c4_cascading_termination_bound :
    (∀ (g : Grid) (row col : ℚ), Cascading.processedCount g row col ≤ 9)
  ∧ (∀ (g : Grid) (queue : List (Fin 3 × Fin 3 × Bool))
      (processed : Finset (Fin 3 × Fin 3)) (fuel : ℕ),
      queue.length + 3 * (9 - processed.card) ≤ fuel →
      Cascading.bfsFuel fuel g queue processed
        = some (Cascading.bfsRun g queue processed)) := by
  constructor
  · intro g row col
    rw [Cascading.processedCount]
    dsimp only
    split_ifs with h1 h2
    all_goals first
      | omega
      | (have hc := bfsRun_count g [(toIdx row, toIdx col, true)] ∅
         simpa using hc)
  · exact fun g q p fuel h => bfsFuel_eq fuel g q p h

/-- Witness for C4: the all-zero grid clicked at (0,0), and the fuelled
loop run with fuel 28 from the corresponding seed. -/
theorem c4_cascading_termination_bound_witness :
    Cascading.processedCount (mkGrid 0 0 0 0 0 0 0 0 0) 0 0 ≤ 9
  ∧ ([((0 : Fin 3), (0 : Fin 3), true)].length
      + 3 * (9 - (∅ : Finset (Fin 3 × Fin 3)).card) ≤ 28)
  ∧ Cascading.bfsFuel 28 (mkGrid 0 0 0 0 0 0 0 0 0)
      [((0 : Fin 3), (0 : Fin 3), true)] ∅
      = some (Cascading.bfsRun (mkGrid 0 0 0 0 0 0 0 0 0)
          [((0 : Fin 3), (0 : Fin 3), true)] ∅) :=
  ⟨c4_cascading_termination_bound.1 (mkGrid 0 0 0 0 0 0 0 0 0) 0 0,
   by simp,
   c4_cascading_termination_bound.2 (mkGrid 0 0 0 0 0 0 0 0 0)
     [((0 : Fin 3), (0 : Fin 3), true)] ∅ 28 (by simp)⟩

/-- C9: what the initial-state constructors actually return.  The
`src/app/gameState.js` version has `moveCount = 0` and
`isGameOver = false` but its grid holds 1..9 (top-left cell is 1), not
the all-zero grid its own test suite and the spec expect; the
`src/unnamed/part_002` version returns the all-zero grid but its record
carries no `moveCount` or `isGameOver` fields at all. -/
theorem c9_initial_state_code_behaviour :
    GameStateJs.createInitialState.grid 0 0 = 1
  ∧ GameStateJs.createInitialState.grid ≠ mkGrid 0 0 0 0 0 0 0 0 0
  ∧ GameStateJs.createInitialState.moveCount = 0
  ∧ GameStateJs.createInitialState.isGameOver = false
  ∧ Cascading.createInitialState.grid = mkGrid 0 0 0 0 0 0 0 0 0 := by
  refine ⟨rfl, ?_, rfl, rfl, rfl⟩
  decide

/-- C7: zero safety guard — a cell whose value is exactly 0 when its
ripple rules are evaluated triggers neither rule, even though 0 is
divisible by 3 and by 5, in both variants.  Conjunct 1: clicking a cell
holding -1 turns it into 0 and changes nothing else, in both variants.
Conjunct 2: in the cascading variant, a ripple-reached (non-original)
cell dequeued while its current value is 0 is marked processed but
changes no cell and enqueues nothing.  Conjunct 3: the same for a
dequeued original click whose incremented value is 0.  Conjunct 4:
concretely, on [[2,1,0],[0,0,0],[0,0,0]] a cascading click at (0,0)
turns the 1 at (0,1) into 0 and the cascade stops there — the 0 at
(0,1) ripples neither right to (0,2) nor below to (1,1). -/
theorem c7_zero_guard :
    (∀ (g : Grid) (r c : Fin 3), g r c = -1 →
      SingleStep.updateGrid g ((r : ℕ) : ℚ) ((c : ℕ) : ℚ) = setCell g r c 0
      ∧ Cascading.updateGrid g ((r : ℕ) : ℚ) ((c : ℕ) : ℚ) = setCell g r c 0)
  ∧ (∀ (g : Grid) (rest : List (Fin 3 × Fin 3 × Bool))
      (processed : Finset (Fin 3 × Fin 3)) (r c : Fin 3),
      (r, c) ∉ processed → g r c = 0 →
      Cascading.bfsRun g ((r, c, false) :: rest) processed
        = ((Cascading.bfsRun g rest (insert (r, c) processed)).1,
           (Cascading.bfsRun g rest (insert (r, c) processed)).2 + 1))
  ∧ (∀ (g : Grid) (rest : List (Fin 3 × Fin 3 × Bool))
      (processed : Finset (Fin 3 × Fin 3)) (r c : Fin 3),
      (r, c) ∉ processed → g r c = -1 →
      Cascading.bfsRun g ((r, c, true) :: rest) processed
        = ((Cascading.bfsRun (setCell g r c 0) rest (insert (r, c) processed)).1,
           (Cascading.bfsRun (setCell g r c 0) rest (insert (r, c) processed)).2 + 1))
  ∧ Cascading.updateGrid (mkGrid 2 1 0 0 0 0 0 0 0) 0 0
      = mkGrid 3 0 0 0 0 0 0 0 0 := by
  refine ⟨?_, ?_, ?_, ?_⟩
  · intro g r c h
    have hl : ¬ isLocked (g r c) := by unfold isLocked; omega
    have hz : g r c + 1 = 0 := by omega
    constructor
    · rw [updateGrid_single_cast, if_neg hl]
      show SingleStep.rippleDown
          (SingleStep.rippleRight (setCell g r c (g r c + 1)) r c
            (setCell g r c (g r c + 1) r c)) r c
          (setCell g r c (g r c + 1) r c) = setCell g r c 0
      rw [setCell_same, hz]
      unfold SingleStep.rippleRight SingleStep.rippleDown
      norm_num
    · rw [updateGrid_cascading_cast, if_neg hl]
      have hstep : Cascading.stepCell g r c true
          = (setCell g r c 0, ([] : List (Fin 3 × Fin 3 × Bool))) := by
        show (if setCell g r c (g r c + 1) r c = 0
            then (setCell g r c (g r c + 1), ([] : List (Fin 3 × Fin 3 × Bool)))
            else Cascading.applyRules (setCell g r c (g r c + 1)) r c)
          = (setCell g r c 0, ([] : List (Fin 3 × Fin 3 × Bool)))
        rw [setCell_same, hz, if_pos rfl]
      rw [Cascading.bfsRun]
      simp only [Finset.not_mem_empty, if_false]
      rw [hstep]
      simp only [List.nil_append]
      rw [Cascading.bfsRun]
  · intro g rest processed r c hmem hz
    have hstep : Cascading.stepCell g r c false
        = (g, ([] : List (Fin 3 × Fin 3 × Bool))) := by
      show (if g r c = 0 then (g, ([] : List (Fin 3 × Fin 3 × Bool)))
          else Cascading.applyRules g r c)
        = (g, ([] : List (Fin 3 × Fin 3 × Bool)))
      rw [if_pos hz]
    rw [Cascading.bfsRun, if_neg hmem, hstep]
    dsimp only
    rw [List.append_nil]
  · intro g rest processed r c hmem hz
    have hz0 : g r c + 1 = 0 := by omega
    have hstep : Cascading.stepCell g r c true
        = (setCell g r c 0, ([] : List (Fin 3 × Fin 3 × Bool))) := by
      show (if setCell g r c (g r c + 1) r c = 0
          then (setCell g r c (g r c + 1), ([] : List (Fin 3 × Fin 3 × Bool)))
          else Cascading.applyRules (setCell g r c (g r c + 1)) r c)
        = (setCell g r c 0, ([] : List (Fin 3 × Fin 3 × Bool)))
      rw [setCell_same, hz0, if_pos rfl]
    rw [Cascading.bfsRun, if_neg hmem, hstep]
    dsimp only
    rw [List.append_nil]
  · have h0 : ((0 : ℚ)) = (((0 : Fin 3) : ℕ) : ℚ) := by norm_num
    rw [h0, updateGrid_cascading_cast, if_neg (by decide)]
    rw [Cascading.bfsRun, if_neg (Finset.not_mem_empty _),
      show Cascading.stepCell (mkGrid 2 1 0 0 0 0 0 0 0) 0 0 true
          = (mkGrid 3 0 0 0 0 0 0 0 0, [((0 : Fin 3), (1 : Fin 3), false)])
        from by decide]
    dsimp only
    simp only [List.nil_append]
    rw [Cascading.bfsRun, if_neg (by decide),
      show Cascading.stepCell (mkGrid 3 0 0 0 0 0 0 0 0) 0 1 false
          = (mkGrid 3 0 0 0 0 0 0 0 0, ([] : List (Fin 3 × Fin 3 × Bool)))
        from by decide]
    dsimp only
    simp only [List.nil_append]
    rw [Cascading.bfsRun]

/-- Witness for C7: grid [[-1,5,0],[0,0,0],[0,0,0]] clicked at (0,0)
turns the -1 into 0 and changes nothing else, and the mid-cascade state
of the [[2,1,0]] scenario — cell (0,1) dequeued at value 0 with (0,0)
already processed — changes nothing and enqueues nothing. -/
theorem c7_zero_guard_witness :
    mkGrid (-1) 5 0 0 0 0 0 0 0 0 0 = -1
  ∧ SingleStep.updateGrid (mkGrid (-1) 5 0 0 0 0 0 0 0) 0 0
      = setCell (mkGrid (-1) 5 0 0 0 0 0 0 0) 0 0 0
  ∧ Cascading.updateGrid (mkGrid (-1) 5 0 0 0 0 0 0 0) 0 0
      = setCell (mkGrid (-1) 5 0 0 0 0 0 0 0) 0 0 0
  ∧ ((0 : Fin 3), (1 : Fin 3))
      ∉ (insert ((0 : Fin 3), (0 : Fin 3)) (∅ : Finset (Fin 3 × Fin 3)))
  ∧ mkGrid 3 0 0 0 0 0 0 0 0 0 1 = 0
  ∧ Cascading.bfsRun (mkGrid 3 0 0 0 0 0 0 0 0)
      [((0 : Fin 3), (1 : Fin 3), false)]
      (insert ((0 : Fin 3), (0 : Fin 3)) ∅)
      = ((Cascading.bfsRun (mkGrid 3 0 0 0 0 0 0 0 0) []
          (insert ((0 : Fin 3), (1 : Fin 3))
            (insert ((0 : Fin 3), (0 : Fin 3)) ∅))).1,
         (Cascading.bfsRun (mkGrid 3 0 0 0 0 0 0 0 0) []
          (insert ((0 : Fin 3), (1 : Fin 3))
            (insert ((0 : Fin 3), (0 : Fin 3)) ∅))).2 + 1) := by
  have h0 : ((0 : ℚ)) = (((0 : Fin 3) : ℕ) : ℚ) := by norm_num
  refine ⟨by decide, ?_, ?_, by decide, by decide, ?_⟩
  · rw [h0]
    exact (c7_zero_guard.1 (mkGrid (-1) 5 0 0 0 0 0 0 0) 0 0 (by decide)).1
  · rw [h0]
    exact (c7_zero_guard.1 (mkGrid (-1) 5 0 0 0 0 0 0 0) 0 0 (by decide)).2
  · exact c7_zero_guard.2.1 (mkGrid 3 0 0 0 0 0 0 0 0) []
      (insert ((0 : Fin 3), (0 : Fin 3)) ∅) 0 1 (by decide) (by decide)

/-- C3: locked-cell invariant — for every input grid and every click
position, every cell whose input value is ≥ 15 keeps exactly that value
in the grid returned by both variants of updateGrid and by updateCell:
no click effect and no incoming ripple effect alters a locked cell. -/
theorem c3_locked_cell_invariant :
    (∀ (g : Grid) (row col : ℚ) (i j : Fin 3), 15 ≤ g i j →
      SingleStep.updateGrid g row col i j = g i j
      ∧ Cascading.updateGrid g row col i j = g i j)
  ∧ (∀ (s : GameStateJs.GameState) (row col : ℚ) (v : ℤ)
      (i j : Fin 3) (s2 : GameStateJs.GameState), 15 ≤ s.grid i j →
      GameStateJs.updateCell s row col v = some s2 →
      s2.grid i j = s.grid i j) := by
  constructor
  · intro g row col i j h
    constructor
    · rw [SingleStep.updateGrid]
      dsimp only
      by_cases hv : isValidPosition row col
      · rw [if_neg (not_not_intro hv)]
        by_cases hl : isLocked (g (toIdx row) (toIdx col))
        · rw [if_pos hl]
        · rw [if_neg hl]
          have hij : isLocked (g i j) := h
          have hne : ¬(i = toIdx row ∧ j = toIdx col) := by
            rintro ⟨rfl, rfl⟩
            exact hl hij
          by_cases h2 : i = toIdx row ∧ (j : ℕ) = ((toIdx col : Fin 3) : ℕ) + 1
          · obtain ⟨rfl, hj⟩ := h2
            rw [click_right g (toIdx row) (toIdx col) j hj, if_neg]
            rintro ⟨-, -, hnl⟩
            exact hnl hij
          · by_cases h3 : (i : ℕ) = ((toIdx row : Fin 3) : ℕ) + 1 ∧ j = toIdx col
            · obtain ⟨hi, rfl⟩ := h3
              rw [click_below g (toIdx row) (toIdx col) i hi, if_neg]
              rintro ⟨-, -, hnl⟩
              exact hnl hij
            · exact click_other g (toIdx row) (toIdx col) i j hne h2 h3
      · rw [if_pos hv]
    · rw [Cascading.updateGrid]
      dsimp only
      by_cases hv : isValidPosition row col
      · rw [if_neg (not_not_intro hv)]
        by_cases hl : isLocked (g (toIdx row) (toIdx col))
        · rw [if_pos hl]
        · rw [if_neg hl]
          refine bfsRun_locked g g [(toIdx row, toIdx col, true)] ∅ ?_
            (fun a b _ => rfl) i j h
          intro e he hb
          rw [List.mem_singleton] at he
          subst he
          exact hl
      · rw [if_pos hv]
  · intro s row col v i j s2 h hupd
    rw [GameStateJs.updateCell] at hupd
    dsimp only at hupd
    by_cases hv : isValidPosition row col
    · rw [if_neg (not_not_intro hv)] at hupd
      by_cases hl : isLocked (s.grid (toIdx row) (toIdx col))
      · rw [if_pos hl] at hupd
        rw [← Option.some.inj hupd]
      · rw [if_neg hl] at hupd
        rw [← Option.some.inj hupd]
        dsimp only
        apply setCell_other
        rintro ⟨rfl, rfl⟩
        exact hl h
    · rw [if_pos hv] at hupd
      simp at hupd

/-- Witness for C3: the cell (0,0) holding 15 survives a click at (1,1)
in both variants, and updateCell on a locked target leaves the state
unchanged. -/
theorem c3_locked_cell_invariant_witness :
    15 ≤ mkGrid 15 0 0 0 0 0 0 0 0 0 0
  ∧ SingleStep.updateGrid (mkGrid 15 0 0 0 0 0 0 0 0) 1 1 0 0
      = mkGrid 15 0 0 0 0 0 0 0 0 0 0
  ∧ Cascading.updateGrid (mkGrid 15 0 0 0 0 0 0 0 0) 1 1 0 0
      = mkGrid 15 0 0 0 0 0 0 0 0 0 0
  ∧ GameStateJs.updateCell ⟨mkGrid 15 0 0 0 0 0 0 0 0, 0, false⟩ 0 0 7
      = some ⟨mkGrid 15 0 0 0 0 0 0 0 0, 0, false⟩
  ∧ (⟨mkGrid 15 0 0 0 0 0 0 0 0, 0, false⟩ : GameStateJs.GameState).grid 0 0
      = mkGrid 15 0 0 0 0 0 0 0 0 0 0 := by
  have hupd : GameStateJs.updateCell ⟨mkGrid 15 0 0 0 0 0 0 0 0, 0, false⟩ 0 0 7
      = some ⟨mkGrid 15 0 0 0 0 0 0 0 0, 0, false⟩ := rfl
  exact ⟨by decide,
    (c3_locked_cell_invariant.1 (mkGrid 15 0 0 0 0 0 0 0 0) 1 1 0 0 (by decide)).1,
    (c3_locked_cell_invariant.1 (mkGrid 15 0 0 0 0 0 0 0 0) 1 1 0 0 (by decide)).2,
    hupd,
    c3_locked_cell_invariant.2 ⟨mkGrid 15 0 0 0 0 0 0 0 0, 0, false⟩ 0 0 7 0 0
      ⟨mkGrid 15 0 0 0 0 0 0 0 0, 0, false⟩ (by decide) hupd⟩

/-- C1: single-step variant postcondition — for every 3×3 integer grid
and every in-bounds click whose target value is < 15, the returned grid
holds the old value plus exactly 1 at the clicked cell; the right
neighbour (when it exists) loses 1 exactly when the new value is
nonzero, divisible by 3 and that neighbour is not locked, and is
untouched otherwise; the neighbour below (when it exists) gains 2
exactly when the new value is nonzero, divisible by 5 and that
neighbour is not locked, and is untouched otherwise (the two rules are
evaluated independently); and every other cell is unchanged — in
particular, neighbours that received a ripple are not re-evaluated. -/
theorem c1_single_step_postcondition (g : Grid) (r c : Fin 3)
    (h : g r c < 15) :
    SingleStep.updateGrid g ((r : ℕ) : ℚ) ((c : ℕ) : ℚ) r c = g r c + 1
  ∧ (∀ j : Fin 3, (j : ℕ) = (c : ℕ) + 1 →
      SingleStep.updateGrid g ((r : ℕ) : ℚ) ((c : ℕ) : ℚ) r j =
        if g r c + 1 ≠ 0 ∧ 3 ∣ (g r c + 1) ∧ ¬ isLocked (g r j)
        then g r j - 1 else g r j)
  ∧ (∀ i : Fin 3, (i : ℕ) = (r : ℕ) + 1 →
      SingleStep.updateGrid g ((r : ℕ) : ℚ) ((c : ℕ) : ℚ) i c =
        if g r c + 1 ≠ 0 ∧ 5 ∣ (g r c + 1) ∧ ¬ isLocked (g i c)
        then g i c + 2 else g i c)
  ∧ (∀ i j : Fin 3, ¬(i = r ∧ j = c) → ¬(i = r ∧ (j : ℕ) = (c : ℕ) + 1) →
      ¬((i : ℕ) = (r : ℕ) + 1 ∧ j = c) →
      SingleStep.updateGrid g ((r : ℕ) : ℚ) ((c : ℕ) : ℚ) i j = g i j) := by
  have hl : ¬ isLocked (g r c) := by unfold isLocked; omega
  have key : SingleStep.updateGrid g ((r : ℕ) : ℚ) ((c : ℕ) : ℚ)
      = SingleStep.click g r c := by
    rw [updateGrid_single_cast, if_neg hl]
  rw [key]
  refine ⟨click_center g r c, ?_, ?_,
    fun i j h1 h2 h3 => click_other g r c i j h1 h2 h3⟩
  · intro j hj
    rw [click_right g r c j hj]
    have hd : (g r c + 1) % 3 = 0 ↔ 3 ∣ (g r c + 1) :=
      ⟨Int.dvd_of_emod_eq_zero, Int.emod_eq_zero_of_dvd⟩
    rw [if_congr (by rw [hd]) rfl rfl]
  · intro i hi
    rw [click_below g r c i hi]
    have hd : (g r c + 1) % 5 = 0 ↔ 5 ∣ (g r c + 1) :=
      ⟨Int.dvd_of_emod_eq_zero, Int.emod_eq_zero_of_dvd⟩
    rw [if_congr (by rw [hd]) rfl rfl]

/-- Witness for C1: grid [[2,0,0],[0,0,0],[0,0,0]] clicked at (0,0);
the clicked cell becomes 3 and the right neighbour drops to -1. -/
theorem c1_single_step_postcondition_witness :
    mkGrid 2 0 0 0 0 0 0 0 0 0 0 < 15
  ∧ SingleStep.updateGrid (mkGrid 2 0 0 0 0 0 0 0 0) 0 0 0 0
      = mkGrid 2 0 0 0 0 0 0 0 0 0 0 + 1 := by
  have h0 : ((0 : ℚ)) = (((0 : Fin 3) : ℕ) : ℚ) := by norm_num
  refine ⟨by decide, ?_⟩
  rw [h0]
  exact (c1_single_step_postcondition (mkGrid 2 0 0 0 0 0 0 0 0) 0 0 (by decide)).1

/-! Validation of candidate grids (C8). -/

theorem copyGrid_eq_self (v : JSVal) : copyGrid v = v := by
  cases v with
  | num n => rfl
  | other => rfl
  | arr rows =>
    show JSVal.arr (rows.map fun row =>
        match row with
        | JSVal.arr cells => JSVal.arr cells
        | v => v) = JSVal.arr rows
    congr 1
    have hf : (fun row =>
        match row with
        | JSVal.arr cells => JSVal.arr cells
        | v => v) = id := by
      funext row
      cases row <;> rfl
    rw [hf, List.map_id]

/-- C8 counterexample: a 3×3 grid whose top-left cell is `Infinity` is
accepted by `isValidGrid` (the code only rejects `NaN` among numbers),
although it is not a grid of finite numeric values as the claim
requires. -/
theorem c8_infinity_accepted_counterexample :
    isValidGrid (JSVal.arr
      [JSVal.arr [JSVal.num JSNum.inf, JSVal.num (JSNum.finite 0),
        JSVal.num (JSNum.finite 0)],
       JSVal.arr [JSVal.num (JSNum.finite 0), JSVal.num (JSNum.finite 0),
        JSVal.num (JSNum.finite 0)],
       JSVal.arr [JSVal.num (JSNum.finite 0), JSVal.num (JSNum.finite 0),
        JSVal.num (JSNum.finite 0)]]) = true
  ∧ ¬ specFiniteGrid (JSVal.arr
      [JSVal.arr [JSVal.num JSNum.inf, JSVal.num (JSNum.finite 0),
        JSVal.num (JSNum.finite 0)],
       JSVal.arr [JSVal.num (JSNum.finite 0), JSVal.num (JSNum.finite 0),
        JSVal.num (JSNum.finite 0)],
       JSVal.arr [JSVal.num (JSNum.finite 0), JSVal.num (JSNum.finite 0),
        JSVal.num (JSNum.finite 0)]]) := by
  constructor
  · rfl
  · intro hspec
    simp only [specFiniteGrid] at hspec
    obtain ⟨-, hrows⟩ := hspec
    have h1 := hrows (JSVal.arr [JSVal.num JSNum.inf,
      JSVal.num (JSNum.finite 0), JSVal.num (JSNum.finite 0)]) (by simp)
    obtain ⟨-, hcells⟩ := h1
    have h2 := hcells (JSVal.num JSNum.inf) (by simp)
    obtain ⟨q, hq⟩ := h2
    simp at hq

/-- C8 amended: `isValidGrid` accepts exactly the candidates made of 3
rows of 3 cells each holding a number other than `NaN` (`Infinity` and
`-Infinity` included), and `createCustomState` throws its descriptive
error exactly when `isValidGrid` rejects the candidate, otherwise
returning a state holding a (deep-copied) grid equal to the argument. -/
theorem c8_validation_amended (cand : JSVal) :
    (isValidGrid cand = true ↔ specNonNaNGrid cand)
  ∧ (createCustomState cand
      = Except.error "Invalid grid: must be 3x3 array of numbers"
      ↔ isValidGrid cand = false)
  ∧ (∀ s, createCustomState cand = Except.ok s → s.grid = cand) := by
  refine ⟨?_, ?_, ?_⟩
  · cases cand with
    | num n => simp [isValidGrid, specNonNaNGrid]
    | other => simp [isValidGrid, specNonNaNGrid]
    | arr rows =>
      simp only [isValidGrid, specNonNaNGrid, Bool.and_eq_true, beq_iff_eq,
        List.all_eq_true]
      constructor
      · rintro ⟨hlen, hall⟩
        refine ⟨hlen, ?_⟩
        intro row hrow
        have hr := hall row hrow
        cases row with
        | num n => simp at hr
        | other => simp at hr
        | arr cells =>
          simp only [Bool.and_eq_true, beq_iff_eq, List.all_eq_true] at hr
          refine ⟨hr.1, ?_⟩
          intro cell hcell
          have hc := hr.2 cell hcell
          cases cell with
          | num n =>
            cases n with
            | nan => simp at hc
            | finite q => exact ⟨_, rfl, by simp⟩
            | inf => exact ⟨_, rfl, by simp⟩
            | negInf => exact ⟨_, rfl, by simp⟩
          | arr l => simp at hc
          | other => simp at hc
      · rintro ⟨hlen, hall⟩
        refine ⟨hlen, ?_⟩
        intro row hrow
        have hr := hall row hrow
        cases row with
        | num n => exact hr.elim
        | other => exact hr.elim
        | arr cells =>
          simp only [Bool.and_eq_true, beq_iff_eq, List.all_eq_true]
          refine ⟨hr.1, ?_⟩
          intro cell hcell
          obtain ⟨n, rfl, hn⟩ := hr.2 cell hcell
          cases n <;> simp_all
  · by_cases hval : isValidGrid cand = true
    · rw [createCustomState, if_neg (not_not_intro hval)]
      simp [hval]
    · have hfalse : isValidGrid cand = false := by
        cases hbool : isValidGrid cand
        · rfl
        · exact absurd hbool hval
      rw [createCustomState, if_pos hval]
      simp [hfalse]
  · intro s hs
    rw [createCustomState] at hs
    by_cases hval : isValidGrid cand = true
    · rw [if_neg (not_not_intro hval)] at hs
      rw [← Except.ok.inj hs]
      exact copyGrid_eq_self cand
    · rw [if_pos hval] at hs
      simp at hs

/-- Witness for the amended C8 on the all-zero literal grid: validation
succeeds, the iff instances hold, and the constructed state holds the
grid itself. -/
theorem c8_validation_amended_witness :
    createCustomState (JSVal.arr
      [JSVal.arr [JSVal.num (JSNum.finite 0), JSVal.num (JSNum.finite 0),
        JSVal.num (JSNum.finite 0)],
       JSVal.arr [JSVal.num (JSNum.finite 0), JSVal.num (JSNum.finite 0),
        JSVal.num (JSNum.finite 0)],
       JSVal.arr [JSVal.num (JSNum.finite 0), JSVal.num (JSNum.finite 0),
        JSVal.num (JSNum.finite 0)]])
      = Except.ok ⟨JSVal.arr
      [JSVal.arr [JSVal.num (JSNum.finite 0), JSVal.num (JSNum.finite 0),
        JSVal.num (JSNum.finite 0)],
       JSVal.arr [JSVal.num (JSNum.finite 0), JSVal.num (JSNum.finite 0),
        JSVal.num (JSNum.finite 0)],
       JSVal.arr [JSVal.num (JSNum.finite 0), JSVal.num (JSNum.finite 0),
        JSVal.num (JSNum.finite 0)]]⟩
  ∧ (⟨JSVal.arr
      [JSVal.arr [JSVal.num (JSNum.finite 0), JSVal.num (JSNum.finite 0),
        JSVal.num (JSNum.finite 0)],
       JSVal.arr [JSVal.num (JSNum.finite 0), JSVal.num (JSNum.finite 0),
        JSVal.num (JSNum.finite 0)],
       JSVal.arr [JSVal.num (JSNum.finite 0), JSVal.num (JSNum.finite 0),
        JSVal.num (JSNum.finite 0)]]⟩ : CustomState).grid
      = JSVal.arr
      [JSVal.arr [JSVal.num (JSNum.finite 0), JSVal.num (JSNum.finite 0),
        JSVal.num (JSNum.finite 0)],
       JSVal.arr [JSVal.num (JSNum.finite 0), JSVal.num (JSNum.finite 0),
        JSVal.num (JSNum.finite 0)],
       JSVal.arr [JSVal.num (JSNum.finite 0), JSVal.num (JSNum.finite 0),
        JSVal.num (JSNum.finite 0)]] :=
  ⟨rfl,
   (c8_validation_amended (JSVal.arr
      [JSVal.arr [JSVal.num (JSNum.finite 0), JSVal.num (JSNum.finite 0),
        JSVal.num (JSNum.finite 0)],
       JSVal.arr [JSVal.num (JSNum.finite 0), JSVal.num (JSNum.finite 0),
        JSVal.num (JSNum.finite 0)],
       JSVal.arr [JSVal.num (JSNum.finite 0), JSVal.num (JSNum.finite 0),
        JSVal.num (JSNum.finite 0)]])).2.2 _ rfl⟩
